import Mathlib

/-!
# Verification of the travel-page generator (scripts/generate-travel.js)

Shallow embedding of the metadata-extraction-and-page-assembly pipeline.
External effects are made explicit:

* the EXIF decoder outcome is a value of type `Except Unit (Option RawMetadata)`
  (exception raised / returned null / returned a record);
* `Date#toLocaleDateString` composed with `new Date` is an abstract parameter
  `fmtDate : String → String` (the generated text depends on the runtime
  locale data; the only fact used about it is that it never returns the
  empty string, which holds for every toLocaleDateString implementation);
* the decimal rendering of a JS number is an abstract parameter
  `showNum : Rat → String`; GPS coordinates are modelled as rationals
  (JS number truthiness of a coordinate value q is modelled as q not equal to 0);
* directory listings are `Except Unit (List String)` (readdir may throw);
* the template read is `Except Unit String`.

JS-specific semantics that the source relies on are embedded faithfully:
string/number truthiness, `Array#join`, `String#split` on a separator
character, `parseInt` (whitespace skip, sign, 0x prefix, longest digit
run), negative/out-of-range array indexing yielding undefined, `a || b`,
template interpolation of undefined, `path.extname`, and
`String#replace` with a string pattern: first occurrence only, with
GetSubstitution expansion of dollar patterns in the replacement string.
-/

/-- JS truthiness of a possibly-absent string value: `undefined` and the
empty string are falsy. -/
def truthyStr : Option String → Bool
  | none => false
  | some s => decide (s ≠ "")

/-- JS truthiness of a possibly-absent numeric value: `undefined` and `0`
are falsy (NaN, which is also falsy, has no counterpart in `Rat`). -/
def truthyNum : Option Rat → Bool
  | none => false
  | some q => decide (q ≠ 0)

/-- The fields of the decoder output (`exifr.parse` result) that the
script reads.  `none` models an absent (undefined) field; `some ""` is a
present-but-empty value, which JS distinguishes from absence. -/
structure RawMetadata where
  DateTimeOriginal : Option String
  DateTime : Option String
  Make : Option String
  Model : Option String
  latitude : Option Rat
  longitude : Option Rat
  ImageDescription : Option String
  UserComment : Option String

/-- The fixed-shape record produced by `getImageMetadata`
(lines 48-53 of generate-travel.js). -/
structure NormalizedMetadata where
  date : String
  camera : String
  location : Option (Rat × Rat)
  description : Option String
deriving DecidableEq

/-- The all-fallback record returned on decode failure or absent data
(lines 40-45 / 48-53 / 101-106). -/
def fallbackMetadata : NormalizedMetadata :=
  { date := "Unknown date", camera := "Unknown camera",
    location := none, description := none }

/-- Lines 48-98 of generate-travel.js: normalization of a successfully
decoded record.  Each `if (exifData.X)` is a JS truthiness test. -/
def normalizeExif (fmtDate : String → String) (e : RawMetadata) : NormalizedMetadata :=
  { date :=
      if truthyStr e.DateTimeOriginal then fmtDate (e.DateTimeOriginal.getD "")
      else if truthyStr e.DateTime then fmtDate (e.DateTime.getD "")
      else "Unknown date"
    camera :=
      if truthyStr e.Make && truthyStr e.Model then
        e.Make.getD "" ++ " " ++ e.Model.getD ""
      else if truthyStr e.Make then e.Make.getD ""
      else if truthyStr e.Model then e.Model.getD ""
      else "Unknown camera"
    location :=
      if truthyNum e.latitude && truthyNum e.longitude then
        some (e.latitude.getD 0, e.longitude.getD 0)
      else none
    description :=
      if truthyStr e.ImageDescription then e.ImageDescription
      else if truthyStr e.UserComment then e.UserComment
      else none }

/-- Lines 22-108: `getImageMetadata`.  The decoder outcome is explicit:
a raised error (caught at line 99), a null result (line 39), or data. -/
def getImageMetadata (fmtDate : String → String)
    (decoded : Except Unit (Option RawMetadata)) : NormalizedMetadata :=
  match decoded with
  | .error _ => fallbackMetadata
  | .ok none => fallbackMetadata
  | .ok (some e) => normalizeExif fmtDate e

/-- `String#split(sep)` on a one-character separator, on the character
list: keeps empty segments, and splitting the empty string yields one
empty segment. -/
def splitOnChar (sep : Char) : List Char → List (List Char)
  | [] => [[]]
  | c :: rest =>
    let r := splitOnChar sep rest
    if c = sep then [] :: r
    else
      match r with
      | [] => [[c]]
      | h :: t => (c :: h) :: t

/-- `String#split(sep)` for a one-character separator string. -/
def jsSplit (s : String) (sep : Char) : List String :=
  (splitOnChar sep s.data).map String.mk

/-- `Array#join(sep)`: empty array gives the empty string. -/
def joinSep (sep : String) : List String → String
  | [] => ""
  | [s] => s
  | s :: t :: rest => s ++ sep ++ joinSep sep (t :: rest)

/-- Characters skipped by `parseInt` before the number (the common
whitespace characters). -/
def isJsWhitespace (c : Char) : Bool :=
  c = ' ' || c = '\t' || c = '\n' || c = '\r'

/-- Decimal digit value. -/
def digitVal (c : Char) : Option Nat :=
  if '0' ≤ c ∧ c ≤ '9' then some (c.toNat - '0'.toNat) else none

/-- Hexadecimal digit value. -/
def hexVal (c : Char) : Option Nat :=
  if '0' ≤ c ∧ c ≤ '9' then some (c.toNat - '0'.toNat)
  else if 'a' ≤ c ∧ c ≤ 'f' then some (c.toNat - 'a'.toNat + 10)
  else if 'A' ≤ c ∧ c ≤ 'F' then some (c.toNat - 'A'.toNat + 10)
  else none

/-- Accumulate the longest leading digit run. -/
def parseDigitsAux (base : Nat) (val : Char → Option Nat) : List Char → Nat → Nat
  | [], acc => acc
  | c :: rest, acc =>
    match val c with
    | some d => parseDigitsAux base val rest (acc * base + d)
    | none => acc

/-- The longest leading digit run, `none` (NaN) when there is no digit. -/
def parseDigits (base : Nat) (val : Char → Option Nat) (cs : List Char) : Option Nat :=
  match cs with
  | [] => none
  | c :: _ =>
    match val c with
    | some _ => some (parseDigitsAux base val cs 0)
    | none => none

/-- JS `parseInt(s)` with no radix argument: skip whitespace, optional
sign, `0x`/`0X` selects base 16, then the longest digit run; `none`
models NaN. -/
def jsParseInt (s : String) : Option Int :=
  let cs := s.data.dropWhile isJsWhitespace
  let signed : Int × List Char :=
    match cs with
    | c :: rest =>
      if c = '-' then (-1, rest) else if c = '+' then (1, rest) else (1, cs)
    | [] => (1, [])
  let body : Option Nat :=
    match signed.2 with
    | c0 :: c1 :: rest =>
      if c0 = '0' ∧ (c1 = 'x' ∨ c1 = 'X') then parseDigits 16 hexVal rest
      else parseDigits 10 digitVal signed.2
    | _ => parseDigits 10 digitVal signed.2
  body.map (fun n => signed.1 * n)

/-- The fixed 12-entry month table (lines 116-119). -/
def monthNames : List String :=
  ["January", "February", "March", "April", "May", "June",
   "July", "August", "September", "October", "November", "December"]

/-- JS array indexing `l[i]` with an integer index: negative or
out-of-range gives undefined. -/
def jsIndex (l : List String) (i : Int) : Option String :=
  if i < 0 then none else l.get? i.toNat

/-- `monthNames[parseInt(month) - 1]` of line 121; an undefined `month`
(fewer than two parts) behaves as NaN. -/
def jsIndexMonth (month : Option String) : Option String :=
  match month with
  | none => none
  | some m =>
    match jsParseInt m with
    | none => none
    | some n => jsIndex monthNames (n - 1)

/-- JS `a || b` on possibly-undefined strings: `a` unless it is undefined
or empty. -/
def jsOr (a b : Option String) : Option String :=
  match a with
  | some s => if s = "" then b else some s
  | none => b

/-- Template interpolation of a possibly-undefined string. -/
def jsStr : Option String → String
  | some s => s
  | none => "undefined"

/-- `word.charAt(0).toUpperCase() + word.slice(1)` (lines 122-124). -/
def capitalizeWord (w : String) : String :=
  match w.data with
  | [] => ""
  | c :: rest => String.mk (Char.toUpper c :: rest)

/-- Lines 110-127: `formatTripName`. -/
def formatTripName (dirName : String) : String :=
  let parts := jsSplit dirName '-'
  let year := parts.get? 0
  let month := parts.get? 1
  let location := joinSep " " (parts.drop 2)
  let monthName := jsOr (jsIndexMonth month) month
  let locationFormatted := joinSep " " ((jsSplit location ' ').map capitalizeWord)
  jsStr monthName ++ " " ++ jsStr year ++ ", " ++ locationFormatted

/-- The month segment as the specification words it: the table entry when
the second part parses as an integer in 1-12, otherwise the raw second
part verbatim. -/
def specMonthSegment (m : String) : String :=
  match jsParseInt m with
  | some n => if 1 ≤ n ∧ n ≤ 12 then monthNames.getD (n - 1).toNat m else m
  | none => m

/-- Line 7: the image extension allow-list. -/
def IMAGE_EXTENSIONS : List String := [".jpg", ".jpeg", ".png", ".gif", ".webp"]

/-- The suffix of the list starting at its last dot character. -/
def lastDotSuffix : List Char → Option (List Char)
  | [] => none
  | c :: rest =>
    match lastDotSuffix rest with
    | some s => some s
    | none => if c = '.' then some (c :: rest) else none

/-- `path.extname` restricted to plain file names (no directory
separators, as produced by readdir): the extension starting at the last
dot, except that a dot in the first position does not start an
extension. -/
def extname (file : String) : String :=
  match file.data with
  | [] => ""
  | _ :: rest =>
    match lastDotSuffix rest with
    | some suf => String.mk suf
    | none => ""

/-- `String#toLowerCase` (ASCII range, which covers the allow-list). -/
def toLowerStr (s : String) : String := String.mk (s.data.map Char.toLower)

/-- Lines 12-14: the filter predicate of `getImageFiles`. -/
def isImageFile (file : String) : Bool :=
  IMAGE_EXTENSIONS.contains (toLowerStr (extname file))

/-- Insertion into a sorted list, default string order. -/
def insertStr (s : String) : List String → List String
  | [] => [s]
  | t :: ts => if s ≤ t then s :: t :: ts else t :: insertStr s ts

/-- `Array#sort()` on an array of strings: lexicographic ascending. -/
def sortStrings : List String → List String
  | [] => []
  | s :: rest => insertStr s (sortStrings rest)

/-- Lines 9-20: `getImageFiles`; a readdir failure is caught and yields
the empty list. -/
def getImageFiles (listing : Except Unit (List String)) : List String :=
  match listing with
  | .error _ => []
  | .ok files => sortStrings (files.filter isImageFile)

/-- The map-link line of line 137, for a present location. -/
def mapLinkLine (showNum : Rat → String) (lat lng : Rat) : String :=
  "<p class=\"location\">📍 <a href=\"https://maps.google.com/?q=" ++
    showNum lat ++ "," ++ showNum lng ++
    "\" target=\"_blank\">View on Map</a></p>"

/-- Lines 136-138: the optional location line (a non-null location
object is always truthy). -/
def locationInfo (showNum : Rat → String) (m : NormalizedMetadata) : String :=
  match m.location with
  | some (lat, lng) => mapLinkLine showNum lat lng
  | none => ""

/-- Lines 140-142: the optional description line (truthiness test, so a
present-but-empty description also renders nothing). -/
def descriptionInfo (m : NormalizedMetadata) : String :=
  match m.description with
  | some d => if d = "" then "" else "<p class=\"description\">📝 " ++ d ++ "</p>"
  | none => ""

/-- Lines 144-153: one image block. -/
def imageElement (showNum : Rat → String) (tripDir tripName imageName : String)
    (m : NormalizedMetadata) : String :=
  "\n        <div class=\"image-container\">\n            <img src=\"/public/travel/" ++
  tripDir ++ "/" ++ imageName ++ "\" alt=\"" ++ tripName ++ " - " ++ imageName ++
  "\" loading=\"lazy\">\n            <div class=\"image-info\">\n                <p class=\"date\">📅 " ++
  m.date ++ "</p>\n                <p class=\"camera\">📷 " ++ m.camera ++
  "</p>\n                " ++ locationInfo showNum m ++ "\n                " ++
  descriptionInfo m ++ "\n            </div>\n        </div>"

/-- Lines 129-170: `generateTripSection`.  The per-image metadata lookup
is the abstract map `meta tripDir imageName` (in the script it is
`getImageMetadata` applied to the joined path). -/
def generateTripSection (meta : String → String → NormalizedMetadata)
    (showNum : Rat → String) (tripDir tripName : String)
    (images : List String) : String :=
  let imageElements := images.map fun imageName =>
    imageElement showNum tripDir tripName imageName (meta tripDir imageName)
  "\n    <section class=\"trip-section\" id=\"" ++ tripDir ++
  "\">\n        <div class=\"trip-header\">\n            <h2 class=\"trip-title\">" ++
  tripName ++
  "</h2>\n            <div class=\"trip-meta\">\n                <span class=\"trip-count\">" ++
  toString images.length ++
  " photos</span>\n            </div>\n        </div>\n        <div class=\"gallery\">\n            " ++
  joinSep "" imageElements ++ "\n        </div>\n    </section>"

/-- The trip record pushed by `main` (lines 221-225). -/
structure Trip where
  dir : String
  name : String
  images : List String

/-- The placeholder of line 180. -/
def noTripsHtml : String := "<div class=\"no-trips\"><h2>No trips found</h2></div>"

/-- Line 180: the content substituted into the template. -/
def pageContent (meta : String → String → NormalizedMetadata)
    (showNum : Rat → String) (trips : List Trip) : String :=
  if trips.length > 0 then
    joinSep "" (trips.map fun t => generateTripSection meta showNum t.dir t.name t.images)
  else noTripsHtml

/-- Split a character list at the first occurrence of `pat`, returning
the part strictly before it and the part strictly after it. -/
def splitFirst (pat : List Char) : List Char → Option (List Char × List Char)
  | [] => if pat.isPrefixOf ([] : List Char) then some ([], []) else none
  | c :: rest =>
    if pat.isPrefixOf (c :: rest) then some ([], (c :: rest).drop pat.length)
    else (splitFirst pat rest).map fun p => (c :: p.1, p.2)

/-- Whether `pat` occurs inside `s`. -/
def containsSub (pat s : List Char) : Bool := (splitFirst pat s).isSome

/-- ECMAScript GetSubstitution with a string pattern (no capture groups):
dollar-dollar yields a dollar, dollar-ampersand the matched text,
dollar-backtick the text before the match, dollar-quote the text after
the match; any other dollar sequence is literal. -/
def expandDollar (matched before after : List Char) : List Char → List Char
  | [] => []
  | c :: rest =>
    if c = '$' then
      match rest with
      | [] => ['$']
      | d :: rest2 =>
        if d = '$' then '$' :: expandDollar matched before after rest2
        else if d = '&' then matched ++ expandDollar matched before after rest2
        else if d = Char.ofNat 96 then before ++ expandDollar matched before after rest2
        else if d = Char.ofNat 39 then after ++ expandDollar matched before after rest2
        else c :: d :: expandDollar matched before after rest2
    else c :: expandDollar matched before after rest

/-- `String#replace(pat, repl)` with string arguments: replace the first
occurrence only, expanding dollar patterns in the replacement. -/
def jsReplaceFirst (s pat repl : String) : String :=
  match splitFirst pat.data s.data with
  | none => s
  | some (before, after) =>
    String.mk (before ++ expandDollar pat.data before after repl.data ++ after)

/-- The designated marker token (line 184). -/
def marker : String := "<!-- PUT CONTENT HERE -->"

/-- Lines 172-190: `generateTravelPage`; the template read may fail, in
which case the function returns null. -/
def generateTravelPage (meta : String → String → NormalizedMetadata)
    (showNum : Rat → String) (trips : List Trip)
    (templateRead : Except Unit String) : Option String :=
  match templateRead with
  | .error _ => none
  | .ok template =>
    some (jsReplaceFirst template marker (pageContent meta showNum trips))

/-- Whether a directory listing outcome yields at least one qualifying
image file (a failed listing yields none). -/
def hasQualifyingImage : Except Unit (List String) → Bool
  | .error _ => false
  | .ok files => files.any isImageFile

/-- Lines 214-231: the body of the per-directory loop of `main`:
push a trip exactly when the directory yields at least one image. -/
def collectStep (trips : List Trip) (p : String × Except Unit (List String)) : List Trip :=
  let images := getImageFiles p.2
  if images.length > 0 then
    trips ++ [{ dir := p.1, name := formatTripName p.1, images := images }]
  else trips

/-- Lines 212-231: the trip-collection loop of `main`, over the listing
outcome of each discovered directory, in discovery order. -/
def collectTrips (listings : List (String × Except Unit (List String))) : List Trip :=
  listings.foldl collectStep []

/-- A decoded record whose latitude is present but zero (a point on the
equator) and whose longitude is present and nonzero. -/
def rawZeroLat : RawMetadata :=
  { DateTimeOriginal := none, DateTime := none, Make := none, Model := none,
    latitude := some 0, longitude := some 1,
    ImageDescription := none, UserComment := none }

/-- A decoded record with both coordinates present and nonzero. -/
def rawBothCoords : RawMetadata :=
  { DateTimeOriginal := none, DateTime := none, Make := none, Model := none,
    latitude := some 35, longitude := some 139,
    ImageDescription := none, UserComment := none }

/-- A decoded record whose camera make is present but empty and whose
model is absent. -/
def rawEmptyMake : RawMetadata :=
  { DateTimeOriginal := none, DateTime := none, Make := some "", Model := none,
    latitude := none, longitude := none,
    ImageDescription := none, UserComment := none }

/-- A decoded record whose image description is present but empty while a
user comment is present and non-empty. -/
def rawEmptyDescription : RawMetadata :=
  { DateTimeOriginal := none, DateTime := none, Make := none, Model := none,
    latitude := none, longitude := none,
    ImageDescription := some "", UserComment := some "hi" }

/-! ## Helper lemmas -/

theorem truthyStr_some_of_ne (s : String) (h : s ≠ "") : truthyStr (some s) = true := by
  simp [truthyStr, h]

theorem truthyStr_eq_true_iff (o : Option String) :
    truthyStr o = true ↔ ∃ s, o = some s ∧ s ≠ "" := by
  cases o with
  | none => simp [truthyStr]
  | some s => simp [truthyStr]

theorem truthyNum_eq_true_iff (o : Option Rat) :
    truthyNum o = true ↔ ∃ q, o = some q ∧ q ≠ 0 := by
  cases o with
  | none => simp [truthyNum]
  | some q => simp [truthyNum]

theorem append_space_ne_empty (x y : String) : x ++ " " ++ y ≠ "" := by
  intro h
  have hl := congrArg String.length h
  rw [String.length_append, String.length_append] at hl
  have h1 : (" " : String).length = 1 := rfl
  have h0 : ("" : String).length = 0 := rfl
  omega

theorem getD_ne_empty_of_truthy (o : Option String) (h : truthyStr o = true) :
    o.getD "" ≠ "" := by
  cases o with
  | none => simp [truthyStr] at h
  | some s => simpa [truthyStr] using h

theorem isPrefixOf_eq_true_iff (p : List Char) :
    ∀ s : List Char, p.isPrefixOf s = true ↔ ∃ t, s = p ++ t := by
  induction p with
  | nil => intro s; simp [List.isPrefixOf]
  | cons a as ih =>
    intro s
    cases s with
    | nil => simp [List.isPrefixOf]
    | cons b bs =>
      simp only [List.isPrefixOf, Bool.and_eq_true, beq_iff_eq, ih,
        List.cons_append, List.cons.injEq]
      constructor
      · rintro ⟨rfl, t, rfl⟩; exact ⟨t, rfl, rfl⟩
      · rintro ⟨t, rfl, rfl⟩; exact ⟨rfl, t, rfl⟩

theorem splitFirst_sound (pat : List Char) :
    ∀ s a b : List Char, splitFirst pat s = some (a, b) → s = a ++ pat ++ b := by
  intro s
  induction s with
  | nil =>
    intro a b h
    simp only [splitFirst] at h
    split at h
    · rename_i hp
      obtain ⟨t, ht⟩ := (isPrefixOf_eq_true_iff pat []).mp hp
      obtain ⟨h1, h2⟩ := List.append_eq_nil.mp ht.symm
      simp only [Option.some.injEq, Prod.mk.injEq] at h
      simp [← h.1, ← h.2, h1]
    · exact absurd h (by simp)
  | cons c rest ih =>
    intro a b h
    simp only [splitFirst] at h
    split at h
    · rename_i hp
      obtain ⟨t, ht⟩ := (isPrefixOf_eq_true_iff pat (c :: rest)).mp hp
      simp only [Option.some.injEq, Prod.mk.injEq] at h
      rw [← h.1, ← h.2, ht, List.drop_left]
      simp
    · simp only [Option.map_eq_some'] at h
      obtain ⟨⟨a', b'⟩, hrec, heq⟩ := h
      simp only [Prod.mk.injEq] at heq
      rw [← heq.1, ← heq.2]
      simp [ih a' b' hrec]

theorem splitFirst_complete (pat : List Char) :
    ∀ a b : List Char, (splitFirst pat (a ++ pat ++ b)).isSome = true := by
  intro a
  induction a with
  | nil =>
    intro b
    cases hs : pat ++ b with
    | nil =>
      obtain ⟨h1, h2⟩ := List.append_eq_nil.mp hs
      simp [splitFirst, h1, h2, List.isPrefixOf]
    | cons c rest =>
      have hp : pat.isPrefixOf (c :: rest) = true :=
        (isPrefixOf_eq_true_iff pat (c :: rest)).mpr ⟨b, hs.symm⟩
      simp [splitFirst, hs, hp]
  | cons c a' ih =>
    intro b
    simp only [List.cons_append, splitFirst]
    split
    · simp
    · have := ih b
      simp only [List.append_assoc] at this ⊢
      cases hrec : splitFirst pat (a' ++ (pat ++ b)) with
      | none => rw [hrec] at this; simp at this
      | some p => simp [hrec]

theorem splitFirst_none_iff (pat s : List Char) :
    splitFirst pat s = none ↔ ¬ ∃ a b, s = a ++ pat ++ b := by
  constructor
  · rintro hn ⟨a, b, rfl⟩
    have := splitFirst_complete pat a b
    rw [hn] at this
    simp at this
  · intro h
    cases hs : splitFirst pat s with
    | none => rfl
    | some p =>
      exact absurd ⟨p.1, p.2, splitFirst_sound pat s p.1 p.2 (by rw [hs])⟩ h

theorem splitFirst_min (pat : List Char) :
    ∀ s a b : List Char, splitFirst pat s = some (a, b) →
      ∀ a₂ b₂, s = a₂ ++ pat ++ b₂ → a.length ≤ a₂.length := by
  intro s
  induction s with
  | nil =>
    intro a b h a₂ b₂ _
    simp only [splitFirst] at h
    split at h
    · simp only [Option.some.injEq, Prod.mk.injEq] at h
      simp [← h.1]
    · exact absurd h (by simp)
  | cons c rest ih =>
    intro a b h a₂ b₂ hs
    simp only [splitFirst] at h
    split at h
    · simp only [Option.some.injEq, Prod.mk.injEq] at h
      simp [← h.1]
    · rename_i hp
      simp only [Option.map_eq_some'] at h
      obtain ⟨⟨a', b'⟩, hrec, heq⟩ := h
      simp only [Prod.mk.injEq] at heq
      obtain ⟨ha, _⟩ := heq
      cases a₂ with
      | nil =>
        exact absurd
          ((isPrefixOf_eq_true_iff pat (c :: rest)).mpr ⟨b₂, by simpa using hs⟩) hp
      | cons d a₂' =>
        simp only [List.cons_append, List.cons.injEq] at hs
        have hle := ih a' b' hrec a₂' b₂ hs.2
        rw [← ha]
        simp only [List.length_cons]
        omega

theorem expandDollar_no_dollar (matched before after : List Char) :
    ∀ repl : List Char, '$' ∉ repl →
      expandDollar matched before after repl = repl := by
  intro repl
  induction repl with
  | nil => intro _; rfl
  | cons c rest ih =>
    intro h
    have hc : c ≠ '$' := fun hc => h (hc ▸ List.mem_cons_self c rest)
    have hrest : '$' ∉ rest := fun hr => h (List.mem_cons_of_mem c hr)
    unfold expandDollar
    rw [if_neg hc, ih hrest]

theorem insertStr_ne_nil (s : String) (l : List String) : insertStr s l ≠ [] := by
  cases l with
  | nil => simp [insertStr]
  | cons t ts =>
    simp only [insertStr]
    split <;> simp

theorem sortStrings_eq_nil_iff (l : List String) : sortStrings l = [] ↔ l = [] := by
  cases l with
  | nil => simp [sortStrings]
  | cons s rest => simp [sortStrings, insertStr_ne_nil]

theorem getImageFiles_pos_iff (listing : Except Unit (List String)) :
    0 < (getImageFiles listing).length ↔ hasQualifyingImage listing = true := by
  cases listing with
  | error e => simp [getImageFiles, hasQualifyingImage]
  | ok files =>
    simp only [getImageFiles, hasQualifyingImage, List.length_pos,
      Ne, sortStrings_eq_nil_iff, List.filter_eq_nil_iff, List.any_eq_true]
    push_neg
    constructor
    · rintro ⟨x, hx, hpx⟩; exact ⟨x, hx, hpx⟩
    · rintro ⟨x, hx, hpx⟩; exact ⟨x, hx, hpx⟩

theorem collectTrips_go (listings : List (String × Except Unit (List String))) :
    ∀ init : List Trip,
      (listings.foldl collectStep init).map Trip.dir =
        init.map Trip.dir ++
          ((listings.filter fun p => hasQualifyingImage p.2).map Prod.fst) := by
  induction listings with
  | nil => intro init; simp
  | cons p rest ih =>
    intro init
    simp only [List.foldl_cons, ih, List.filter_cons]
    by_cases h : 0 < (getImageFiles p.2).length
    · rw [if_pos ((getImageFiles_pos_iff p.2).mp h)]
      have hstep : collectStep init p =
          init ++ [{ dir := p.1, name := formatTripName p.1,
                     images := getImageFiles p.2 }] := by
        simp [collectStep, h]
      rw [hstep]
      simp
    · rw [if_neg (by
        intro hq
        exact h ((getImageFiles_pos_iff p.2).mpr hq))]
      have hstep : collectStep init p = init := by
        simp [collectStep, h]
      rw [hstep]

theorem monthSegment_eq (m : String) :
    jsStr (jsOr (jsIndexMonth (some m)) (some m)) = specMonthSegment m := by
  have hm : jsIndexMonth (some m) =
      (match jsParseInt m with
       | none => none
       | some n => jsIndex monthNames (n - 1)) := rfl
  rw [hm]
  cases h : jsParseInt m with
  | none => simp only [specMonthSegment, h]; rfl
  | some n =>
    simp only [specMonthSegment, h]
    by_cases hn : 1 ≤ n ∧ n ≤ 12
    · obtain ⟨h1, h2⟩ := hn
      interval_cases n <;> rfl
    · rw [if_neg hn]
      have hidx : jsIndex monthNames (n - 1) = none := by
        unfold jsIndex
        rcases not_and_or.mp hn with h1 | h2
        · rw [if_pos (by omega)]
        · push_neg at h2
          rw [if_neg (by omega)]
          apply List.get?_eq_none.mpr
          have : (12 : Nat) ≤ (n - 1).toNat := by omega
          simpa [monthNames] using this
      simp [hidx, jsOr, jsStr]

/-! ## Claim theorems -/

/-- C1: for every image path, `getImageMetadata` never propagates a
failure (it is a total function of the decoder outcome), and whenever the
decoder raises an error or returns no data it returns exactly the
all-fallback record: date "Unknown date", camera "Unknown camera",
location absent, description absent. -/
theorem getImageMetadata_fallback_on_failure :
    ∀ (fmtDate : String → String) (err : Unit),
      getImageMetadata fmtDate (.error err) = fallbackMetadata ∧
      getImageMetadata fmtDate (.ok none) = fallbackMetadata ∧
      fallbackMetadata.date = "Unknown date" ∧
      fallbackMetadata.camera = "Unknown camera" ∧
      fallbackMetadata.location = none ∧
      fallbackMetadata.description = none :=
  fun _ _ => ⟨rfl, rfl, rfl, rfl, rfl, rfl⟩

/-- C6: for every decoder outcome, the normalized record has a non-empty
date and a non-empty camera string, and location and description are
each either fully populated or absent.  The date formatter is abstract;
the hypothesis records the fact (true of toLocaleDateString) that it
never produces the empty string. -/
theorem normalized_invariants (fmtDate : String → String)
    (hf : ∀ s, fmtDate s ≠ "") (decoded : Except Unit (Option RawMetadata)) :
    (getImageMetadata fmtDate decoded).date ≠ "" ∧
    (getImageMetadata fmtDate decoded).camera ≠ "" ∧
    ((getImageMetadata fmtDate decoded).location = none ∨
      ∃ lat lng, (getImageMetadata fmtDate decoded).location = some (lat, lng)) ∧
    ((getImageMetadata fmtDate decoded).description = none ∨
      ∃ d, (getImageMetadata fmtDate decoded).description = some d) := by
  have hshape : ∀ m : NormalizedMetadata,
      (m.location = none ∨ ∃ lat lng, m.location = some (lat, lng)) ∧
      (m.description = none ∨ ∃ d, m.description = some d) := by
    intro m
    constructor
    · rcases hl : m.location with _ | ⟨la, lo⟩
      · exact Or.inl rfl
      · exact Or.inr ⟨la, lo, rfl⟩
    · rcases hd : m.description with _ | d
      · exact Or.inl rfl
      · exact Or.inr ⟨d, rfl⟩
  cases decoded with
  | error e =>
    exact ⟨by show ("Unknown date" : String) ≠ ""; decide,
           by show ("Unknown camera" : String) ≠ ""; decide,
           hshape (getImageMetadata fmtDate (.error e))⟩
  | ok o =>
    cases o with
    | none =>
      exact ⟨by show ("Unknown date" : String) ≠ ""; decide,
             by show ("Unknown camera" : String) ≠ ""; decide,
             hshape (getImageMetadata fmtDate (.ok none))⟩
    | some e =>
      refine ⟨?_, ?_, hshape _⟩
      · show (normalizeExif fmtDate e).date ≠ ""
        simp only [normalizeExif]
        split
        · exact hf _
        · split
          · exact hf _
          · decide
      · show (normalizeExif fmtDate e).camera ≠ ""
        simp only [normalizeExif]
        split
        · exact append_space_ne_empty _ _
        · split
          · rename_i hmk
            exact getD_ne_empty_of_truthy _ hmk
          · split
            · rename_i hmd
              exact getD_ne_empty_of_truthy _ hmd
            · decide

/-- Witness for C6 at a concrete formatter and decoder outcome. -/
theorem normalized_invariants_witness :
    (getImageMetadata (fun _ => "date text") (.ok (some rawEmptyMake))).date ≠ "" ∧
    (getImageMetadata (fun _ => "date text") (.ok (some rawEmptyMake))).camera ≠ "" ∧
    ((getImageMetadata (fun _ => "date text") (.ok (some rawEmptyMake))).location = none ∨
      ∃ lat lng, (getImageMetadata (fun _ => "date text")
        (.ok (some rawEmptyMake))).location = some (lat, lng)) ∧
    ((getImageMetadata (fun _ => "date text") (.ok (some rawEmptyMake))).description = none ∨
      ∃ d, (getImageMetadata (fun _ => "date text")
        (.ok (some rawEmptyMake))).description = some d) :=
  normalized_invariants (fun _ => "date text")
    (fun _ => by show ("date text" : String) ≠ ""; decide) (.ok (some rawEmptyMake))

/-- C2 counterexample: a record in which both coordinate fields are
present (latitude 0, longitude 1) yet the normalized location is absent
and no map-link line is rendered, because line 85 tests JS truthiness
and the number 0 is falsy. -/
theorem location_zero_coordinate_cex :
    rawZeroLat.latitude.isSome = true ∧
    rawZeroLat.longitude.isSome = true ∧
    (normalizeExif (fun s => s) rawZeroLat).location = none ∧
    locationInfo (fun _ => "0") (normalizeExif (fun s => s) rawZeroLat) = "" :=
  ⟨rfl, rfl, by decide, by decide⟩

/-- C2 (amended): the normalized location is present iff both coordinate
fields are present with nonzero (JS-truthy) values; the rendered image
block contains the map-link line with the coordinates embedded iff the
location is present, and renders the empty string for it otherwise. -/
theorem location_truthy_iff_and_maplink (fmtDate : String → String)
    (showNum : Rat → String) (e : RawMetadata) :
    ((normalizeExif fmtDate e).location.isSome = true ↔
      (∃ la, e.latitude = some la ∧ la ≠ 0) ∧
      (∃ lo, e.longitude = some lo ∧ lo ≠ 0)) ∧
    (∀ lat lng, (normalizeExif fmtDate e).location = some (lat, lng) →
      locationInfo showNum (normalizeExif fmtDate e) = mapLinkLine showNum lat lng) ∧
    ((normalizeExif fmtDate e).location = none →
      locationInfo showNum (normalizeExif fmtDate e) = "") := by
  refine ⟨?_, ?_, ?_⟩
  · show (if truthyNum e.latitude && truthyNum e.longitude then
        some (e.latitude.getD 0, e.longitude.getD 0) else none).isSome = true ↔ _
    rw [← truthyNum_eq_true_iff, ← truthyNum_eq_true_iff]
    constructor
    · intro h
      split at h
      · rename_i hb
        exact ⟨(Bool.and_eq_true _ _).mp hb |>.1, (Bool.and_eq_true _ _).mp hb |>.2⟩
      · simp at h
    · rintro ⟨h1, h2⟩
      rw [h1, h2]
      rfl
  · intro lat lng h
    simp [locationInfo, h]
  · intro h
    simp [locationInfo, h]

/-- Witness for C2 (amended) at concrete records, discharging the
location-present hypothesis at a record with both coordinates nonzero
and the location-absent hypothesis at the zero-latitude record. -/
theorem location_truthy_iff_and_maplink_witness :
    locationInfo (fun _ => "q") (normalizeExif (fun s => s) rawBothCoords) =
      mapLinkLine (fun _ => "q") 35 139 ∧
    locationInfo (fun _ => "q") (normalizeExif (fun s => s) rawZeroLat) = "" :=
  ⟨(location_truthy_iff_and_maplink (fun s => s) (fun _ => "q") rawBothCoords).2.1
      35 139 (by decide),
   (location_truthy_iff_and_maplink (fun s => s) (fun _ => "q") rawZeroLat).2.2
      (by decide)⟩

/-- C7 counterexample: a record whose camera make is present but empty
and whose model is absent.  The claim predicts the camera string equals
the present field (the empty string); line 79 tests truthiness, so the
code yields "Unknown camera" instead. -/
theorem camera_empty_make_cex :
    rawEmptyMake.Make = some "" ∧
    rawEmptyMake.Model = none ∧
    (normalizeExif (fun s => s) rawEmptyMake).camera = "Unknown camera" ∧
    (normalizeExif (fun s => s) rawEmptyMake).camera ≠ "" :=
  ⟨rfl, rfl, by decide, by decide⟩

/-- C7 (amended): with presence interpreted as JS truthiness (present
with a non-empty value), the camera string is "Make Model" when both are
truthy, the truthy one when exactly one is truthy, and "Unknown camera"
when neither is. -/
theorem camera_truthy_rule (fmtDate : String → String) (e : RawMetadata) :
    (∀ mk md, e.Make = some mk → mk ≠ "" → e.Model = some md → md ≠ "" →
      (normalizeExif fmtDate e).camera = mk ++ " " ++ md) ∧
    (∀ mk, e.Make = some mk → mk ≠ "" → truthyStr e.Model = false →
      (normalizeExif fmtDate e).camera = mk) ∧
    (∀ md, truthyStr e.Make = false → e.Model = some md → md ≠ "" →
      (normalizeExif fmtDate e).camera = md) ∧
    (truthyStr e.Make = false → truthyStr e.Model = false →
      (normalizeExif fmtDate e).camera = "Unknown camera") := by
  refine ⟨?_, ?_, ?_, ?_⟩
  · intro mk md h1 h2 h3 h4
    show (if truthyStr e.Make && truthyStr e.Model then _ else _) = _
    rw [h1, h3, truthyStr_some_of_ne mk h2, truthyStr_some_of_ne md h4]
    simp [h1, h3]
  · intro mk h1 h2 h3
    show (if truthyStr e.Make && truthyStr e.Model then _ else _) = _
    rw [h1, h3, truthyStr_some_of_ne mk h2]
    simp [h1]
  · intro md h1 h2 h3
    show (if truthyStr e.Make && truthyStr e.Model then _ else _) = _
    rw [h1, h2, truthyStr_some_of_ne md h3]
    simp [h2]
  · intro h1 h2
    show (if truthyStr e.Make && truthyStr e.Model then _ else _) = _
    rw [h1, h2]
    simp

/-- Witness for C7 (amended) at concrete records, exercising all four
precedence branches. -/
theorem camera_truthy_rule_witness :
    (normalizeExif (fun s => s)
      { rawEmptyMake with Make := some "Canon", Model := some "EOS" }).camera =
        "Canon" ++ " " ++ "EOS" ∧
    (normalizeExif (fun s => s)
      { rawEmptyMake with Make := some "Canon", Model := none }).camera = "Canon" ∧
    (normalizeExif (fun s => s)
      { rawEmptyMake with Make := none, Model := some "EOS" }).camera = "EOS" ∧
    (normalizeExif (fun s => s) rawEmptyMake).camera = "Unknown camera" :=
  ⟨(camera_truthy_rule (fun s => s) _).1 "Canon" "EOS" rfl (by decide) rfl (by decide),
   (camera_truthy_rule (fun s => s) _).2.1 "Canon" rfl (by decide) (by decide),
   (camera_truthy_rule (fun s => s) _).2.2.1 "EOS" (by decide) rfl (by decide),
   (camera_truthy_rule (fun s => s) rawEmptyMake).2.2.2 (by decide) (by decide)⟩

/-- C8 counterexample: the original-description field is present but
empty while the user comment is present; the claim predicts the
description equals the present original-description field (the empty
string), but line 92 tests truthiness, so the code falls through to the
user comment. -/
theorem description_empty_precedence_cex :
    rawEmptyDescription.ImageDescription = some "" ∧
    rawEmptyDescription.UserComment = some "hi" ∧
    (normalizeExif (fun s => s) rawEmptyDescription).description = some "hi" ∧
    (normalizeExif (fun s => s) rawEmptyDescription).description ≠ some "" :=
  ⟨rfl, rfl, by decide, by decide⟩

/-- C8 (amended): with presence interpreted as JS truthiness (present
with a non-empty value), the description is the original-description
field when truthy, else the user comment when truthy, else absent. -/
theorem description_truthy_rule (fmtDate : String → String) (e : RawMetadata) :
    (∀ d, e.ImageDescription = some d → d ≠ "" →
      (normalizeExif fmtDate e).description = some d) ∧
    (∀ u, truthyStr e.ImageDescription = false → e.UserComment = some u → u ≠ "" →
      (normalizeExif fmtDate e).description = some u) ∧
    (truthyStr e.ImageDescription = false → truthyStr e.UserComment = false →
      (normalizeExif fmtDate e).description = none) := by
  refine ⟨?_, ?_, ?_⟩
  · intro d h1 h2
    show (if truthyStr e.ImageDescription then _ else _) = _
    rw [h1, truthyStr_some_of_ne d h2]
    simp
  · intro u h1 h2 h3
    show (if truthyStr e.ImageDescription then _ else _) = _
    rw [h1, h2, truthyStr_some_of_ne u h3]
    simp
  · intro h1 h2
    show (if truthyStr e.ImageDescription then _ else _) = _
    rw [h1, h2]
    simp

/-- Witness for C8 (amended) at concrete records, exercising all three
precedence branches. -/
theorem description_truthy_rule_witness :
    (normalizeExif (fun s => s)
      { rawEmptyDescription with ImageDescription := some "sunset" }).description =
        some "sunset" ∧
    (normalizeExif (fun s => s) rawEmptyDescription).description = some "hi" ∧
    (normalizeExif (fun s => s)
      { rawEmptyDescription with UserComment := none }).description = none :=
  ⟨(description_truthy_rule (fun s => s) _).1 "sunset" rfl (by decide),
   (description_truthy_rule (fun s => s) rawEmptyDescription).2.1 "hi"
      (by decide) rfl (by decide),
   (description_truthy_rule (fun s => s) _).2.2 (by decide) (by decide)⟩

/-- C3: `formatTripName` renders the month segment as the table entry
when the second dash-separated part parses (in the sense of the
implementation, JS parseInt) to an integer in 1-12, and otherwise uses
the raw second part verbatim; in particular the two scenario values of
the specification hold, the second with raw month segment "13". -/
theorem formatTripName_month_mapping :
    (∀ dirName p0 p1 rest, jsSplit dirName '-' = p0 :: p1 :: rest →
      formatTripName dirName =
        specMonthSegment p1 ++ " " ++ p0 ++ ", " ++
          joinSep " " ((jsSplit (joinSep " " rest) ' ').map capitalizeWord)) ∧
    formatTripName "2023-07-paris-france" = "July 2023, Paris France" ∧
    formatTripName "2023-13-nowhere" = "13 2023, Nowhere" := by
  refine ⟨?_, by decide, by decide⟩
  intro dirName p0 p1 rest h
  unfold formatTripName
  rw [h]
  show jsStr (jsOr (jsIndexMonth (some p1)) (some p1)) ++ " " ++ jsStr (some p0) ++ ", " ++
      joinSep " " ((jsSplit (joinSep " " rest) ' ').map capitalizeWord) = _
  rw [monthSegment_eq]
  rfl

/-- Witness for C3 at a concrete directory name, discharging the
split hypothesis by evaluation. -/
theorem formatTripName_month_mapping_witness :
    formatTripName "2023-07-paris-france" =
      specMonthSegment "07" ++ " " ++ "2023" ++ ", " ++
        joinSep " " ((jsSplit (joinSep " " ["paris", "france"]) ' ').map capitalizeWord) :=
  formatTripName_month_mapping.1 "2023-07-paris-france" "2023" "07" ["paris", "france"]
    (by decide)

/-- C4: the directory names of the collected trips are exactly the input
directories whose listing succeeds and contains at least one qualifying
image file; a directory with zero qualifying images, or whose listing
fails, contributes no trip, and every rendered section comes from one
collected trip (keyed by its directory name in `generateTripSection`). -/
theorem collectTrips_section_ids (listings : List (String × Except Unit (List String))) :
    (collectTrips listings).map Trip.dir =
      (listings.filter fun p => hasQualifyingImage p.2).map Prod.fst := by
  have h := collectTrips_go listings []
  simpa [collectTrips] using h

/-- C5: with zero trips, the content substituted for the marker is the
fixed no-trips placeholder, and the assembled page is the template with
its first marker occurrence replaced by exactly that placeholder (it
contains no dollar pattern, so expansion leaves it unchanged); no trip
section is rendered. -/
theorem generateTravelPage_empty_placeholder
    (meta : String → String → NormalizedMetadata) (showNum : Rat → String)
    (tpl : String) (a b : List Char)
    (h : splitFirst marker.data tpl.data = some (a, b)) :
    pageContent meta showNum [] = noTripsHtml ∧
    generateTravelPage meta showNum [] (.ok tpl) =
      some (String.mk (a ++ noTripsHtml.data ++ b)) := by
  constructor
  · rfl
  · have hpc : pageContent meta showNum [] = noTripsHtml := rfl
    simp only [generateTravelPage, hpc, jsReplaceFirst, h]
    rw [expandDollar_no_dollar marker.data a b noTripsHtml.data (by decide)]

/-- Witness for C5 at a concrete template with one marker. -/
theorem generateTravelPage_empty_placeholder_witness :
    pageContent (fun _ _ => fallbackMetadata) (fun _ => "") [] = noTripsHtml ∧
    generateTravelPage (fun _ _ => fallbackMetadata) (fun _ => "") []
        (.ok "X<!-- PUT CONTENT HERE -->Y") =
      some (String.mk ("X".data ++ noTripsHtml.data ++ "Y".data)) :=
  generateTravelPage_empty_placeholder (fun _ _ => fallbackMetadata) (fun _ => "")
    "X<!-- PUT CONTENT HERE -->Y" "X".data "Y".data (by decide)

/-- C9: when the template does not contain the marker token anywhere,
page assembly returns the template unmodified and the generated content
is discarded. -/
theorem generateTravelPage_no_marker_noop
    (meta : String → String → NormalizedMetadata) (showNum : Rat → String)
    (trips : List Trip) (tpl : String)
    (h : ¬ ∃ a b, tpl.data = a ++ marker.data ++ b) :
    generateTravelPage meta showNum trips (.ok tpl) = some tpl := by
  have hn : splitFirst marker.data tpl.data = none := (splitFirst_none_iff _ _).mpr h
  simp only [generateTravelPage, jsReplaceFirst, hn]

/-- Witness for C9 at a concrete marker-free template. -/
theorem generateTravelPage_no_marker_noop_witness :
    generateTravelPage (fun _ _ => fallbackMetadata) (fun _ => "") [] (.ok "hello") =
      some "hello" :=
  generateTravelPage_no_marker_noop (fun _ _ => fallbackMetadata) (fun _ => "") [] "hello"
    ((splitFirst_none_iff marker.data "hello".data).mp (by decide))

/-- C10 counterexample: a template containing the marker twice and one
trip whose directory name contains the JS replacement pattern for the
matched text.  The output is not the template with its first marker
occurrence replaced by the generated content (and later occurrences
verbatim), because `String#replace` expands dollar patterns inside the
replacement string. -/
theorem replace_dollar_pattern_cex :
    generateTravelPage (fun _ _ => fallbackMetadata) (fun _ => "")
        [⟨"$&", "n", ["i.jpg"]⟩] (.ok ("A" ++ marker ++ "B" ++ marker ++ "C")) ≠
      some ("A" ++ pageContent (fun _ _ => fallbackMetadata) (fun _ => "")
        [⟨"$&", "n", ["i.jpg"]⟩] ++ "B" ++ marker ++ "C") := by
  decide

/-- C10 (amended): page assembly replaces only the first occurrence of
the marker, inserting the generated content with JS dollar patterns
expanded; the remainder of the template after the first occurrence,
including every later marker occurrence, appears verbatim in the output,
so the marker still occurs in the output. -/
theorem replace_first_occurrence_expanded
    (meta : String → String → NormalizedMetadata) (showNum : Rat → String)
    (trips : List Trip) (tpl : String) (a b : List Char)
    (h1 : splitFirst marker.data tpl.data = some (a, b))
    (h2 : ∃ u v, b = u ++ marker.data ++ v) :
    generateTravelPage meta showNum trips (.ok tpl) =
      some (String.mk (a ++
        expandDollar marker.data a b (pageContent meta showNum trips).data ++ b)) ∧
    ∃ u v, a ++ expandDollar marker.data a b (pageContent meta showNum trips).data ++ b =
        u ++ marker.data ++ v := by
  constructor
  · simp only [generateTravelPage, jsReplaceFirst, h1]
  · obtain ⟨u, v, rfl⟩ := h2
    exact ⟨a ++ expandDollar marker.data a (u ++ marker.data ++ v)
        (pageContent meta showNum trips).data ++ u, v, by simp⟩

/-- Witness for C10 (amended) at a concrete template containing the
marker twice, with zero trips. -/
theorem replace_first_occurrence_expanded_witness :
    generateTravelPage (fun _ _ => fallbackMetadata) (fun _ => "") []
        (.ok "A<!-- PUT CONTENT HERE -->B<!-- PUT CONTENT HERE -->C") =
      some (String.mk ("A".data ++
        expandDollar marker.data "A".data "B<!-- PUT CONTENT HERE -->C".data
          (pageContent (fun _ _ => fallbackMetadata) (fun _ => "") []).data ++
        "B<!-- PUT CONTENT HERE -->C".data)) ∧
    ∃ u v, "A".data ++
        expandDollar marker.data "A".data "B<!-- PUT CONTENT HERE -->C".data
          (pageContent (fun _ _ => fallbackMetadata) (fun _ => "") []).data ++
        "B<!-- PUT CONTENT HERE -->C".data = u ++ marker.data ++ v :=
  replace_first_occurrence_expanded (fun _ _ => fallbackMetadata) (fun _ => "") []
    "A<!-- PUT CONTENT HERE -->B<!-- PUT CONTENT HERE -->C"
    "A".data "B<!-- PUT CONTENT HERE -->C".data
    (by decide) ⟨"B".data, "C".data, by decide⟩
